import Mathlib

/-!
Verification of the Monoclaw knowledge-base ingestion-and-retrieval core.

The definitions below are a shallow embedding of the Rust sources:
  * `TextChunker.chunk_text`   — src/Rust/knowledge-base/src/ingestion/text_chunker.rs
  * `FileIngester.compute_sha256` — src/Rust/knowledge-base/src/ingestion/file_ingester.rs
  * `EmbeddingClient.embed_document` / `embed_query` — src/Rust/knowledge-base/src/embedding/client.rs
  * `IngestPipeline.ingest_ingested_document` / `IngestPipeline.search`
       — src/Rust/knowledge-base/src/ingestion/pipeline.rs
  * the in-memory document store `memDb` models the schema and interface of
    src/Rust/knowledge-base/src/sql_statements.rs and src/database/interface.rs
    (content_hash UNIQUE on both tables, SERIAL ids, first-row fetch by hash).

Text is represented as `List Char` (Rust iterates `text.chars()`, i.e. Unicode
scalar values).  Machine integers (i32 ids and indices) are modelled as `Int`;
none of the verified properties involve overflow.  Fallible operations return
`Except String`; database calls additionally thread an explicit store state.
-/

set_option autoImplicit false
set_option maxRecDepth 10000

namespace Monoclaw

/-! ### Rust `char::is_whitespace` and `str::trim` -/

/-- Rust's `char::is_whitespace`: the Unicode `White_Space` property. -/
def rustIsWhitespace (c : Char) : Bool :=
  let n := c.toNat
  (0x09 ≤ n && n ≤ 0x0D) || n == 0x20 || n == 0x85 || n == 0xA0 ||
  n == 0x1680 || (0x2000 ≤ n && n ≤ 0x200A) || n == 0x2028 || n == 0x2029 ||
  n == 0x202F || n == 0x205F || n == 0x3000

/-- Rust's `str::trim`: drop leading and trailing whitespace. -/
def trimChars (l : List Char) : List Char :=
  ((l.dropWhile rustIsWhitespace).reverse.dropWhile rustIsWhitespace).reverse

/-! ### TextChunker (text_chunker.rs) -/

/-- Character-based text chunker with configurable size and overlap
(struct `TextChunker` in text_chunker.rs). -/
structure TextChunker where
  chunk_size : Nat
  overlap : Nat
  deriving DecidableEq

/-- The `while start < text_len` loop body of `TextChunker::chunk_text`
(text_chunker.rs lines 41–52).  `fuel` bounds the iteration count; since the
loop advances `start` by `step ≥ 1` each iteration, `chars.length + 1` units
suffice, as the equivalence with `specChunks` below makes precise. -/
def chunkLoop (chunk_size step : Nat) (chars : List Char) :
    Nat → Nat → List (List Char)
  | 0, _ => []
  | fuel + 1, start =>
    if start < chars.length then
      let e := min (start + chunk_size) chars.length
      let chunk := trimChars ((chars.drop start).take (e - start))
      let tail :=
        if e = chars.length then []
        else chunkLoop chunk_size step chars fuel (start + step)
      if chunk.isEmpty then tail else chunk :: tail
    else []

/-- `TextChunker::chunk_text` (text_chunker.rs lines 28–55): split `text`
into overlapping character-based chunks, trimming each window and skipping
windows that trim to empty. -/
def TextChunker.chunk_text (tc : TextChunker) (text : List Char) :
    List (List Char) :=
  if text.isEmpty then []
  else chunkLoop tc.chunk_size (tc.chunk_size - tc.overlap) text
    (text.length + 1) 0

/-! ### Spec-side description of the chunker's windows

The specification describes `chunk_text` as examining windows that start at
positions `0, step, 2*step, ...` and end at `min(start + chunk_size, length)`,
stopping with the first window whose end reaches the text length.  The
following definitions state that description directly so that it can be
compared with the loop above. -/

/-- Index of the last examined window: the least `k` with
`k * step + chunk_size ≥ len`. -/
def lastWindowIndex (chunk_size step len : Nat) : Nat :=
  if len ≤ chunk_size then 0 else (len - chunk_size + step - 1) / step

/-- The start positions `0, step, 2*step, ...` of the examined windows;
empty text yields no windows. -/
def windowStarts (chunk_size step len : Nat) : List Nat :=
  if len = 0 then []
  else (List.range (lastWindowIndex chunk_size step len + 1)).map (· * step)

/-- The window beginning at `s`: characters `s` to
`min (s + chunk_size) length` (exclusive). -/
def windowAt (chunk_size : Nat) (chars : List Char) (s : Nat) : List Char :=
  (chars.drop s).take (min (s + chunk_size) chars.length - s)

/-- The sequence of chunks as the specification describes it: each examined
window is trimmed, and exactly the non-empty trimmed windows are kept, in
order of their start positions. -/
def specChunks (chunk_size step : Nat) (chars : List Char) :
    List (List Char) :=
  ((windowStarts chunk_size step chars.length).map
    (fun s => trimChars (windowAt chunk_size chars s))).filter
    (fun c => !c.isEmpty)

/-! ### Equivalence of the loop with the spec-side window description -/

/-- The sequence of `start` values the loop in `chunk_text` examines. -/
def loopStarts (chunk_size step len : Nat) : Nat → Nat → List Nat
  | 0, _ => []
  | fuel + 1, start =>
    if start < len then
      start ::
        (if min (start + chunk_size) len = len then []
         else loopStarts chunk_size step len fuel (start + step))
    else []

theorem trimChars_length_le (l : List Char) : (trimChars l).length ≤ l.length := by
  unfold trimChars
  calc ((l.dropWhile rustIsWhitespace).reverse.dropWhile rustIsWhitespace).reverse.length
      = ((l.dropWhile rustIsWhitespace).reverse.dropWhile rustIsWhitespace).length := by
        simp
    _ ≤ (l.dropWhile rustIsWhitespace).reverse.length :=
        (List.dropWhile_suffix _).length_le
    _ = (l.dropWhile rustIsWhitespace).length := by simp
    _ ≤ l.length := (List.dropWhile_suffix _).length_le

theorem windowAt_length_le (chunk_size : Nat) (chars : List Char) (s : Nat) :
    (windowAt chunk_size chars s).length ≤ chunk_size := by
  unfold windowAt
  simp only [List.length_take, List.length_drop]
  omega

/-- The loop of `chunk_text` produces exactly the non-empty trimmed windows at
the start positions it visits. -/
theorem chunkLoop_eq_filter_map (chunk_size step : Nat) (chars : List Char) :
    ∀ fuel start,
      chunkLoop chunk_size step chars fuel start =
        ((loopStarts chunk_size step chars.length fuel start).map
          (fun s => trimChars (windowAt chunk_size chars s))).filter
          (fun c => !c.isEmpty) := by
  intro fuel
  induction fuel with
  | zero => intro start; rfl
  | succ fuel ih =>
    intro start
    simp only [chunkLoop, loopStarts]
    by_cases hs : start < chars.length
    · simp only [if_pos hs]
      by_cases he : min (start + chunk_size) chars.length = chars.length
      · simp only [if_pos he, List.map_cons, List.map_nil, List.filter_cons,
          List.filter_nil, windowAt]
        by_cases hemp : (trimChars ((chars.drop start).take
            (min (start + chunk_size) chars.length - start))).isEmpty
        · simp [hemp]
        · simp [hemp]
      · simp only [if_neg he, List.map_cons, List.filter_cons, windowAt, ih]
        by_cases hemp : (trimChars ((chars.drop start).take
            (min (start + chunk_size) chars.length - start))).isEmpty
        · simp [hemp]
        · simp [hemp]
    · simp [hs]

theorem lastWindowIndex_covers (chunk_size step len : Nat) (hstep : 0 < step) :
    len ≤ lastWindowIndex chunk_size step len * step + chunk_size := by
  unfold lastWindowIndex
  split
  · omega
  · rename_i h
    push_neg at h
    by_contra hc
    push_neg at hc
    have e1 : (((len - chunk_size + step - 1) / step) + 1) * step =
        ((len - chunk_size + step - 1) / step) * step + step := by ring
    have h1 : (((len - chunk_size + step - 1) / step) + 1) * step ≤
        len - chunk_size + step - 1 := by omega
    have h2 : ((len - chunk_size + step - 1) / step) + 1 ≤
        (len - chunk_size + step - 1) / step :=
      (Nat.le_div_iff_mul_le hstep).mpr h1
    omega

theorem lt_of_lt_lastWindowIndex (chunk_size step len i : Nat) (hstep : 0 < step)
    (hi : i < lastWindowIndex chunk_size step len) :
    i * step + chunk_size < len := by
  unfold lastWindowIndex at hi
  split at hi
  · omega
  · rename_i h
    push_neg at h
    have h1 : (i + 1) * step ≤ len - chunk_size + step - 1 :=
      (Nat.le_div_iff_mul_le hstep).mp hi
    have e1 : (i + 1) * step = i * step + step := by ring
    omega

theorem mul_step_lt_len (chunk_size step len i : Nat) (hstep : 0 < step)
    (hsc : step ≤ chunk_size) (hlen : 0 < len)
    (hi : i ≤ lastWindowIndex chunk_size step len) :
    i * step < len := by
  have hmono : i * step ≤ lastWindowIndex chunk_size step len * step :=
    Nat.mul_le_mul_right step hi
  have hK : lastWindowIndex chunk_size step len * step < len := by
    rcases Nat.eq_zero_or_pos (lastWindowIndex chunk_size step len) with h0 | h0
    · simpa [h0] using hlen
    · have h1 := lt_of_lt_lastWindowIndex chunk_size step len
        (lastWindowIndex chunk_size step len - 1) hstep (by omega)
      have e1 : (lastWindowIndex chunk_size step len - 1) * step + step =
          lastWindowIndex chunk_size step len * step := by
        have h2 : lastWindowIndex chunk_size step len - 1 + 1 =
            lastWindowIndex chunk_size step len := by omega
        calc (lastWindowIndex chunk_size step len - 1) * step + step
            = (lastWindowIndex chunk_size step len - 1 + 1) * step := by ring
          _ = lastWindowIndex chunk_size step len * step := by rw [h2]
      omega
  omega

theorem loopStarts_eq_range (chunk_size step len : Nat) (hstep : 0 < step)
    (hsc : step ≤ chunk_size) (hlen : 0 < len) :
    ∀ fuel i, i ≤ lastWindowIndex chunk_size step len →
      lastWindowIndex chunk_size step len - i < fuel →
      loopStarts chunk_size step len fuel (i * step) =
        (List.range' i (lastWindowIndex chunk_size step len - i + 1)).map
          (· * step) := by
  intro fuel
  induction fuel with
  | zero => intro i hi hfuel; omega
  | succ fuel ih =>
    intro i hi hfuel
    have hlt : i * step < len := mul_step_lt_len chunk_size step len i hstep hsc hlen hi
    simp only [loopStarts, if_pos hlt]
    rcases Nat.lt_or_ge i (lastWindowIndex chunk_size step len) with h | h
    · have hne : min (i * step + chunk_size) len ≠ len := by
        have := lt_of_lt_lastWindowIndex chunk_size step len i hstep h
        omega
      have estep : i * step + step = (i + 1) * step := by ring
      rw [if_neg hne, estep, ih (i + 1) (by omega) (by omega)]
      have erange : lastWindowIndex chunk_size step len - i + 1 =
          (lastWindowIndex chunk_size step len - (i + 1) + 1) + 1 := by omega
      rw [erange]
      simp [List.range'_succ]
    · have hik : i = lastWindowIndex chunk_size step len := by omega
      have hmin : min (i * step + chunk_size) len = len := by
        have hc := lastWindowIndex_covers chunk_size step len hstep
        rw [hik]
        omega
      rw [if_pos hmin]
      have h1 : lastWindowIndex chunk_size step len - i + 1 = 1 := by omega
      rw [h1]
      simp

/-- `chunk_text` coincides with the specification's window description. -/
theorem chunkText_eq_specChunks (tc : TextChunker) (h1 : 0 < tc.chunk_size)
    (h2 : tc.overlap < tc.chunk_size) (text : List Char) :
    tc.chunk_text text =
      specChunks tc.chunk_size (tc.chunk_size - tc.overlap) text := by
  set step := tc.chunk_size - tc.overlap with hstepdef
  have hstep : 0 < step := by omega
  have hsc : step ≤ tc.chunk_size := by omega
  unfold TextChunker.chunk_text specChunks windowStarts
  by_cases hempty : text.isEmpty
  · have : text.length = 0 := by
      cases text with
      | nil => rfl
      | cons a l => simp at hempty
    simp [hempty, this]
  · have hlen : 0 < text.length := by
      cases text with
      | nil => simp at hempty
      | cons a l => simp
    rw [if_neg hempty, if_neg (by omega)]
    rw [chunkLoop_eq_filter_map]
    have h0 : (0 : Nat) = 0 * step := by ring
    rw [h0, loopStarts_eq_range tc.chunk_size step text.length hstep hsc hlen
      (text.length + 1) 0 (Nat.zero_le _)
      (by
        have := mul_step_lt_len tc.chunk_size step text.length
          (lastWindowIndex tc.chunk_size step text.length) hstep hsc hlen
          (Nat.le_refl _)
        have hK : lastWindowIndex tc.chunk_size step text.length ≤
            lastWindowIndex tc.chunk_size step text.length * step :=
          Nat.le_mul_of_pos_right _ hstep
        omega)]
    rw [List.range_eq_range']
    simp

/-- C1: for every `TextChunker` with `chunk_size > 0` and
`0 ≤ overlap < chunk_size` and every input text, `chunk_text` examines windows
over the text's Unicode scalar values starting at `0, step, 2*step, ...` with
`step = chunk_size - overlap`, each ending at `min (start + chunk_size) length`;
each window is whitespace-trimmed and appended in order exactly when non-empty;
iteration stops once a window's end reaches the text length (the final partial
window appears exactly once); and zero-length input yields the empty
sequence. -/
theorem claim_C1_chunk_text_window_description (tc : TextChunker)
    (h1 : 0 < tc.chunk_size) (h2 : tc.overlap < tc.chunk_size)
    (text : List Char) :
    tc.chunk_text text =
      specChunks tc.chunk_size (tc.chunk_size - tc.overlap) text ∧
    tc.chunk_text [] = [] :=
  ⟨chunkText_eq_specChunks tc h1 h2 text, rfl⟩

theorem claim_C1_chunk_text_window_description_witness :
    0 < (10 : Nat) ∧ (2 : Nat) < 10 ∧
    (TextChunker.chunk_text ⟨10, 2⟩ "Hello, world! This is a test.".data =
        specChunks 10 8 "Hello, world! This is a test.".data ∧
      TextChunker.chunk_text ⟨10, 2⟩ [] = []) :=
  ⟨by decide, by decide,
    claim_C1_chunk_text_window_description ⟨10, 2⟩ (by decide) (by decide)
      "Hello, world! This is a test.".data⟩

/-- C4: for all `chunk_size > overlap ≥ 0` and all text, every chunk returned
by `chunk_text` has at most `chunk_size` characters, and the examined windows
cover the text: every character position lies in at least one window
`[s, min (s + chunk_size) length)` with `s` among the window starts. -/
theorem claim_C4_chunk_length_and_coverage (tc : TextChunker)
    (h1 : 0 < tc.chunk_size) (h2 : tc.overlap < tc.chunk_size)
    (text : List Char) :
    (∀ c ∈ tc.chunk_text text, c.length ≤ tc.chunk_size) ∧
    (∀ i < text.length,
      ∃ s ∈ windowStarts tc.chunk_size (tc.chunk_size - tc.overlap)
          text.length,
        s ≤ i ∧ i < min (s + tc.chunk_size) text.length) := by
  constructor
  · intro c hc
    rw [chunkText_eq_specChunks tc h1 h2] at hc
    unfold specChunks at hc
    have hc' := List.mem_of_mem_filter hc
    rcases List.mem_map.mp hc' with ⟨s, hs, rfl⟩
    exact le_trans (trimChars_length_le _) (windowAt_length_le _ _ _)
  · intro i hi
    have hstep : 0 < tc.chunk_size - tc.overlap := by omega
    have hsc : tc.chunk_size - tc.overlap ≤ tc.chunk_size := by omega
    have hlen : 0 < text.length := by omega
    by_cases hcase :
        i / (tc.chunk_size - tc.overlap) ≤
          lastWindowIndex tc.chunk_size (tc.chunk_size - tc.overlap)
            text.length
    · refine ⟨(i / (tc.chunk_size - tc.overlap)) * (tc.chunk_size - tc.overlap),
        ?_, ?_, ?_⟩
      · unfold windowStarts
        rw [if_neg (by omega)]
        exact List.mem_map.mpr
          ⟨i / (tc.chunk_size - tc.overlap), List.mem_range.mpr (by omega), rfl⟩
      · exact Nat.div_mul_le_self i _
      · have hmod := Nat.div_add_mod i (tc.chunk_size - tc.overlap)
        have hltm := Nat.mod_lt i hstep
        have e : (tc.chunk_size - tc.overlap) * (i / (tc.chunk_size - tc.overlap)) =
            (i / (tc.chunk_size - tc.overlap)) * (tc.chunk_size - tc.overlap) :=
          Nat.mul_comm _ _
        omega
    · refine ⟨lastWindowIndex tc.chunk_size (tc.chunk_size - tc.overlap)
          text.length * (tc.chunk_size - tc.overlap), ?_, ?_, ?_⟩
      · unfold windowStarts
        rw [if_neg (by omega)]
        exact List.mem_map.mpr
          ⟨lastWindowIndex tc.chunk_size (tc.chunk_size - tc.overlap)
              text.length,
            List.mem_range.mpr (by omega), rfl⟩
      · have hb1 : (lastWindowIndex tc.chunk_size (tc.chunk_size - tc.overlap)
              text.length + 1) * (tc.chunk_size - tc.overlap) ≤
            (i / (tc.chunk_size - tc.overlap)) * (tc.chunk_size - tc.overlap) :=
          Nat.mul_le_mul_right _ (by omega)
        have hb2 : (i / (tc.chunk_size - tc.overlap)) *
            (tc.chunk_size - tc.overlap) ≤ i := Nat.div_mul_le_self i _
        have e : (lastWindowIndex tc.chunk_size (tc.chunk_size - tc.overlap)
              text.length + 1) * (tc.chunk_size - tc.overlap) =
            lastWindowIndex tc.chunk_size (tc.chunk_size - tc.overlap)
              text.length * (tc.chunk_size - tc.overlap) +
            (tc.chunk_size - tc.overlap) := by ring
        omega
      · have hc := lastWindowIndex_covers tc.chunk_size
          (tc.chunk_size - tc.overlap) text.length hstep
        omega

theorem claim_C4_chunk_length_and_coverage_witness :
    0 < (10 : Nat) ∧ (2 : Nat) < 10 ∧
    ((∀ c ∈ TextChunker.chunk_text ⟨10, 2⟩
        "Hello, world! This is a test.".data, c.length ≤ 10) ∧
     (∀ i < "Hello, world! This is a test.".data.length,
       ∃ s ∈ windowStarts 10 8 "Hello, world! This is a test.".data.length,
         s ≤ i ∧ i < min (s + 10) "Hello, world! This is a test.".data.length)) :=
  ⟨by decide, by decide,
    claim_C4_chunk_length_and_coverage ⟨10, 2⟩ (by decide) (by decide)
      "Hello, world! This is a test.".data⟩

/-! ### SHA-256 (`FileIngester::compute_sha256`, file_ingester.rs lines 139–143)

The Rust function hashes the UTF-8 bytes of the input with the `sha2` crate's
SHA-256 and hex-encodes the 32-byte digest.  SHA-256 is embedded here over
`Nat` with explicit reduction modulo `2^32`. -/

/-- Truncate to a 32-bit word. -/
def w32 (x : Nat) : Nat := x % 4294967296

/-- 32-bit rotate right (for `x < 2^32`). -/
def rotr32 (n x : Nat) : Nat := w32 ((x >>> n) ||| (x <<< (32 - n)))

def bigSigma0 (x : Nat) : Nat := rotr32 2 x ^^^ rotr32 13 x ^^^ rotr32 22 x
def bigSigma1 (x : Nat) : Nat := rotr32 6 x ^^^ rotr32 11 x ^^^ rotr32 25 x
def smallSigma0 (x : Nat) : Nat := rotr32 7 x ^^^ rotr32 18 x ^^^ (x >>> 3)
def smallSigma1 (x : Nat) : Nat := rotr32 17 x ^^^ rotr32 19 x ^^^ (x >>> 10)

def chFn (x y z : Nat) : Nat := (x &&& y) ^^^ ((x ^^^ 4294967295) &&& z)
def majFn (x y z : Nat) : Nat := (x &&& y) ^^^ (x &&& z) ^^^ (y &&& z)

/-- The 64 SHA-256 round constants (FIPS 180-4 §4.2.2, written in decimal). -/
def sha256K : List Nat :=
  [1116352408, 1899447441, 3049323471, 3921009573, 961987163,
   1508970993, 2453635748, 2870763221, 3624381080, 310598401,
   607225278, 1426881987, 1925078388, 2162078206, 2614888103,
   3248222580, 3835390401, 4022224774, 264347078, 604807628,
   770255983, 1249150122, 1555081692, 1996064986, 2554220882,
   2821834349, 2952996808, 3210313671, 3336571891, 3584528711,
   113926993, 338241895, 666307205, 773529912, 1294757372,
   1396182291, 1695183700, 1986661051, 2177026350, 2456956037,
   2730485921, 2820302411, 3259730800, 3345764771, 3516065817,
   3600352804, 4094571909, 275423344, 430227734, 506948616,
   659060556, 883997877, 958139571, 1322822218, 1537002063,
   1747873779, 1955562222, 2024104815, 2227730452, 2361852424,
   2428436474, 2756734187, 3204031479, 3329325298]

/-- Extend a 16-word message block by `n` further schedule words. -/
def extendSchedule : Nat → List Nat → List Nat
  | 0, ws => ws
  | n + 1, ws =>
    let t := ws.length
    let v := w32 (smallSigma1 (ws.getD (t - 2) 0) + ws.getD (t - 7) 0 +
      smallSigma0 (ws.getD (t - 15) 0) + ws.getD (t - 16) 0)
    extendSchedule n (ws ++ [v])

/-- Working variables a–h of the compression function. -/
structure Sha256Work where
  a : Nat
  b : Nat
  c : Nat
  d : Nat
  e : Nat
  f : Nat
  g : Nat
  h : Nat
  deriving DecidableEq

/-- Intermediate hash value H0–H7. -/
structure Sha256State where
  h0 : Nat
  h1 : Nat
  h2 : Nat
  h3 : Nat
  h4 : Nat
  h5 : Nat
  h6 : Nat
  h7 : Nat
  deriving DecidableEq

/-- One round of the SHA-256 compression function; `kw` is `(K_t, W_t)`. -/
def sha256Round (st : Sha256Work) (kw : Nat × Nat) : Sha256Work :=
  let t1 := w32 (st.h + bigSigma1 st.e + chFn st.e st.f st.g + kw.1 + kw.2)
  let t2 := w32 (bigSigma0 st.a + majFn st.a st.b st.c)
  ⟨w32 (t1 + t2), st.a, st.b, st.c, w32 (st.d + t1), st.e, st.f, st.g⟩

/-- Process one 16-word block. -/
def sha256ProcessBlock (H : Sha256State) (block : List Nat) : Sha256State :=
  let ws := extendSchedule 48 block
  let st := (sha256K.zip ws).foldl sha256Round
    ⟨H.h0, H.h1, H.h2, H.h3, H.h4, H.h5, H.h6, H.h7⟩
  ⟨w32 (H.h0 + st.a), w32 (H.h1 + st.b), w32 (H.h2 + st.c), w32 (H.h3 + st.d),
   w32 (H.h4 + st.e), w32 (H.h5 + st.f), w32 (H.h6 + st.g), w32 (H.h7 + st.h)⟩

/-- The `n`-byte big-endian representation of `x`. -/
def natBytesBE : Nat → Nat → List Nat
  | 0, _ => []
  | n + 1, x => natBytesBE n (x / 256) ++ [x % 256]

def word32Bytes (w : Nat) : List Nat := natBytesBE 4 w

/-- Group bytes into big-endian 32-bit words. -/
def bytesToWords32 : List Nat → List Nat
  | b0 :: b1 :: b2 :: b3 :: rest =>
    (((b0 * 256 + b1) * 256 + b2) * 256 + b3) :: bytesToWords32 rest
  | _ => []

/-- SHA-256 padding: `0x80`, zeros to 56 mod 64, then the 64-bit bit length. -/
def sha256Pad (msg : List Nat) : List Nat :=
  msg ++ 0x80 :: (List.replicate ((119 - msg.length % 64) % 64) 0 ++
    natBytesBE 8 (8 * msg.length))

/-- Split a word list into 16-word blocks (`fuel ≥ words/16` suffices). -/
def toBlocks16 : Nat → List Nat → List (List Nat)
  | 0, _ => []
  | _, [] => []
  | fuel + 1, ws => ws.take 16 :: toBlocks16 fuel (ws.drop 16)

def sha256InitState : Sha256State :=
  ⟨1779033703, 3144134277, 1013904242, 2773480762,
   1359893119, 2600822924, 528734635, 1541459225⟩

/-- The 32-byte SHA-256 digest of a byte sequence. -/
def sha256Digest (msg : List Nat) : List Nat :=
  let words := bytesToWords32 (sha256Pad msg)
  let H := (toBlocks16 (words.length + 1) words).foldl sha256ProcessBlock
    sha256InitState
  word32Bytes H.h0 ++ word32Bytes H.h1 ++ word32Bytes H.h2 ++
    word32Bytes H.h3 ++ word32Bytes H.h4 ++ word32Bytes H.h5 ++
    word32Bytes H.h6 ++ word32Bytes H.h7

def hexDigitChar (n : Nat) : Char :=
  if n < 10 then Char.ofNat (48 + n) else Char.ofNat (87 + n)

/-- Lower-case hex encoding of a byte sequence (Rust's `hex::encode`). -/
def hexEncode (bytes : List Nat) : String :=
  String.mk ((bytes.map (fun b => [hexDigitChar (b / 16), hexDigitChar (b % 16)])).flatten)

/-- UTF-8 encoding of one Unicode scalar value (Rust's `str::as_bytes` view). -/
def utf8EncodeChar (c : Char) : List Nat :=
  let n := c.toNat
  if n < 0x80 then [n]
  else if n < 0x800 then [0xC0 ||| (n >>> 6), 0x80 ||| (n &&& 0x3F)]
  else if n < 0x10000 then
    [0xE0 ||| (n >>> 12), 0x80 ||| ((n >>> 6) &&& 0x3F), 0x80 ||| (n &&& 0x3F)]
  else
    [0xF0 ||| (n >>> 18), 0x80 ||| ((n >>> 12) &&& 0x3F),
     0x80 ||| ((n >>> 6) &&& 0x3F), 0x80 ||| (n &&& 0x3F)]

def utf8Encode (s : List Char) : List Nat := (s.map utf8EncodeChar).flatten

/-- `FileIngester::compute_sha256` (file_ingester.rs lines 139–143): the
SHA-256 hex digest of the UTF-8 bytes of `content`. -/
def FileIngester.compute_sha256 (content : List Char) : String :=
  hexEncode (sha256Digest (utf8Encode content))

theorem natBytesBE_length (n : Nat) : ∀ x, (natBytesBE n x).length = n := by
  induction n with
  | zero => intro x; rfl
  | succ n ih => intro x; simp [natBytesBE, ih]

theorem sha256Digest_length (msg : List Nat) :
    (sha256Digest msg).length = 32 := by
  simp [sha256Digest, word32Bytes, natBytesBE_length]

theorem hexEncode_length (bs : List Nat) :
    (hexEncode bs).length = 2 * bs.length := by
  have h : ∀ l : List Nat,
      ((l.map (fun b => [hexDigitChar (b / 16), hexDigitChar (b % 16)])).flatten).length =
        2 * l.length := by
    intro l
    induction l with
    | nil => rfl
    | cons b l ih => simp [ih]; omega
  simpa [hexEncode, String.length] using h bs

/-- C9: `compute_sha256` is a deterministic pure function of the input text's
bytes returning a fixed-length (64 hex character) digest, and on `"hello"` it
yields the standard SHA-256 test vector. -/
theorem claim_C9_compute_sha256_deterministic_and_test_vector :
    (∀ x : List Char,
      FileIngester.compute_sha256 x = FileIngester.compute_sha256 x) ∧
    (∀ x : List Char, (FileIngester.compute_sha256 x).length = 64) ∧
    FileIngester.compute_sha256 "hello".data =
      "2cf24dba5fb0a30e26e83b2ac5b9e29e1b161e5c1fa7425e73043362938b9824" := by
  refine ⟨fun x => rfl, fun x => ?_, by decide⟩
  have h1 : (sha256Digest (utf8Encode x)).length = 32 := sha256Digest_length _
  calc (FileIngester.compute_sha256 x).length
      = 2 * (sha256Digest (utf8Encode x)).length := hexEncode_length _
    _ = 64 := by rw [h1]

/-! ### Embedding client (client.rs)

The HTTP round-trip (request send, status check, JSON decode) is modelled as
one fallible transport function per endpoint; the embedding vector type is a
parameter `Emb`. -/

/-- `POST /embed` request body (`types.rs` `EmbedRequest`): outer list =
documents, inner list = ordered chunks. -/
structure EmbedRequest where
  chunks : List (List (List Char))
  deriving DecidableEq

/-- `POST /embed` response body: same nesting, innermost = one vector. -/
structure EmbedResponse (Emb : Type) where
  embeddings : List (List Emb)

/-- `POST /embed_query` request body. -/
structure EmbedQueryRequest where
  query : List Char
  deriving DecidableEq

/-- `POST /embed_query` response body. -/
structure EmbedQueryResponse (Emb : Type) where
  embedding : Emb

/-- `EmbeddingClient` (client.rs): its observable behaviour is the two
transport functions for the `/embed` and `/embed_query` endpoints. -/
structure EmbeddingClient (Emb : Type) where
  post_embed : EmbedRequest → Except String (EmbedResponse Emb)
  post_embed_query : EmbedQueryRequest → Except String (EmbedQueryResponse Emb)

/-- `EmbeddingClient::embed_document` (client.rs lines 88–115): reject an
empty chunk list, send the chunks as a batch of one document, and return the
first inner embedding list of the response. -/
def EmbeddingClient.embed_document {Emb : Type} (c : EmbeddingClient Emb)
    (chunks : List (List Char)) : Except String (List Emb) :=
  if chunks.isEmpty then
    .error "embed_document: chunks must not be empty"
  else
    match c.post_embed ⟨[chunks]⟩ with
    | .error e => .error e
    | .ok response =>
      match response.embeddings with
      | [] => .error "embed_document: server returned empty embeddings list"
      | first :: _ => .ok first

/-- `EmbeddingClient::embed_query` (client.rs lines 157–180): reject an
empty or whitespace-only query, then send it to `/embed_query`. -/
def EmbeddingClient.embed_query {Emb : Type} (c : EmbeddingClient Emb)
    (query : List Char) : Except String Emb :=
  if (trimChars query).isEmpty then
    .error "embed_query: query must not be empty"
  else
    match c.post_embed_query ⟨query⟩ with
    | .error e => .error e
    | .ok response => .ok response.embedding

/-! ### Data model (models.rs; timestamps omitted, JSON metadata opaque) -/

/-- A row of `knowledge_base_documents` (models.rs `Document`). -/
structure Document where
  id : Int
  title : Option String
  source_path : Option String
  source_type : Option String
  raw_content : List Char
  content_hash : String
  metadata : Option String
  deriving DecidableEq

/-- models.rs `InsertDocument`. -/
structure InsertDocument where
  title : Option String
  source_path : Option String
  source_type : Option String
  raw_content : List Char
  content_hash : String
  metadata : Option String
  deriving DecidableEq

/-- models.rs `InsertChunk`. -/
structure InsertChunk (Emb : Type) where
  document_id : Int
  chunk_index : Int
  total_chunks : Int
  content : List Char
  content_hash : String
  embedding : Option Emb
  deriving DecidableEq

/-- A row of `knowledge_base_chunks`. -/
structure StoredChunk (Emb : Type) where
  id : Int
  document_id : Int
  chunk_index : Int
  total_chunks : Int
  content : List Char
  content_hash : String
  embedding : Option Emb
  deriving DecidableEq

/-- file_ingester.rs `IngestedDocument`. -/
structure IngestedDocument where
  title : String
  source_path : String
  source_type : String
  raw_content : List Char
  metadata : Option String
  deriving DecidableEq

/-- pipeline.rs `IngestResult`. -/
structure IngestResult where
  document_id : Int
  chunks_inserted : Nat
  was_duplicate : Bool
  deriving DecidableEq

/-! ### Document store interface (interface.rs)

Each operation takes and returns an explicit store state `σ`, so the same
pipeline definition runs against the in-memory model of the Postgres schema
(`memDb`) or against stub stores exhibiting collaborator failures. -/

structure DbOps (σ Emb : Type) where
  document_exists_by_hash : σ → String → Except String Bool × σ
  fetch_document_by_hash : σ → String → Except String (Option Document) × σ
  insert_document : σ → InsertDocument → Except String Int × σ
  insert_chunk : σ → InsertChunk Emb → Except String Int × σ

/-- In-memory contents of the two tables of sql_statements.rs, with the
`SERIAL` id counters. -/
structure StoreState (Emb : Type) where
  documents : List Document
  chunks : List (StoredChunk Emb)
  next_document_id : Int
  next_chunk_id : Int
  deriving DecidableEq

/-- In-memory model of the store: `GET_DOCUMENT_BY_HASH` returns the first
row whose `content_hash` matches; the inserts enforce the `UNIQUE` constraint
on `content_hash` of each table (sql_statements.rs) and assign `SERIAL`
ids; failed statements leave the state unchanged. -/
def memDb {Emb : Type} : DbOps (StoreState Emb) Emb where
  document_exists_by_hash := fun st h =>
    (.ok (st.documents.any (fun d => d.content_hash == h)), st)
  fetch_document_by_hash := fun st h =>
    (.ok (st.documents.find? (fun d => d.content_hash == h)), st)
  insert_document := fun st doc =>
    if st.documents.any (fun d => d.content_hash == doc.content_hash) then
      (.error "Failed to insert document: duplicate key value violates unique constraint",
        st)
    else
      (.ok st.next_document_id,
        { st with
          documents := st.documents ++
            [⟨st.next_document_id, doc.title, doc.source_path, doc.source_type,
              doc.raw_content, doc.content_hash, doc.metadata⟩],
          next_document_id := st.next_document_id + 1 })
  insert_chunk := fun st c =>
    if st.chunks.any (fun d => d.content_hash == c.content_hash) then
      (.error "Failed to insert chunk: duplicate key value violates unique constraint",
        st)
    else
      (.ok st.next_chunk_id,
        { st with
          chunks := st.chunks ++
            [⟨st.next_chunk_id, c.document_id, c.chunk_index, c.total_chunks,
              c.content, c.content_hash, c.embedding⟩],
          next_chunk_id := st.next_chunk_id + 1 })

/-! ### Ingestion pipeline (pipeline.rs) -/

/-- `anyhow`'s `.context(msg)`: prefix the error with context. -/
def errContext (msg e : String) : String := msg ++ ": " ++ e

/-- The `for (idx, (chunk_text, embedding)) in ...` loop of
`ingest_ingested_document` (pipeline.rs lines 187–200): hash and insert each
chunk in order, counting insertions. -/
def insert_chunks_loop {σ Emb : Type} (db : DbOps σ Emb) (document_id : Int)
    (total : Nat) :
    σ → List (List Char × Emb) → Nat → Nat → Except String Nat × σ
  | st, [], _, inserted => (.ok inserted, st)
  | st, (ctext, embedding) :: rest, idx, inserted =>
    let chunk_hash := FileIngester.compute_sha256 ctext
    match db.insert_chunk st
        ⟨document_id, Int.ofNat idx, Int.ofNat total, ctext, chunk_hash,
          some embedding⟩ with
    | (.error e, st') => (.error e, st')
    | (.ok _, st') =>
      insert_chunks_loop db document_id total st' rest (idx + 1) (inserted + 1)

/-- Lines 156–212 of pipeline.rs: the non-duplicate path of
`ingest_ingested_document` — insert the document row, chunk, embed, check the
embedding count, and insert the chunks. -/
def ingest_insert_path {σ Emb : Type} (db : DbOps σ Emb)
    (client : EmbeddingClient Emb) (chunker : TextChunker) (st : σ)
    (ingested : IngestedDocument) (content_hash : String) :
    Except String IngestResult × σ :=
  let insert_doc : InsertDocument :=
    ⟨some ingested.title, some ingested.source_path, some ingested.source_type,
      ingested.raw_content, content_hash, ingested.metadata⟩
  match db.insert_document st insert_doc with
  | (.error e, st') => (.error e, st')
  | (.ok document_id, st') =>
    let chunks := chunker.chunk_text ingested.raw_content
    if chunks.isEmpty then
      (.error "No chunks produced from document content", st')
    else
      match client.embed_document chunks with
      | .error e => (.error e, st')
      | .ok chunk_embeddings =>
        if chunk_embeddings.length ≠ chunks.length then
          (.error ("Embedding count mismatch: expected " ++
            toString chunks.length ++ ", got " ++
            toString chunk_embeddings.length), st')
        else
          match insert_chunks_loop db document_id chunks.length st'
              (chunks.zip chunk_embeddings) 0 0 with
          | (.error e, st'') => (.error e, st'')
          | (.ok chunks_inserted, st'') =>
            (.ok ⟨document_id, chunks_inserted, false⟩, st'')

/-- `IngestPipeline::ingest_ingested_document` (pipeline.rs lines 131–213):
dedup check by content hash, then the insert path. -/
def ingest_ingested_document {σ Emb : Type} (db : DbOps σ Emb)
    (client : EmbeddingClient Emb) (chunker : TextChunker) (st : σ)
    (ingested : IngestedDocument) : Except String IngestResult × σ :=
  let content_hash := FileIngester.compute_sha256 ingested.raw_content
  match db.document_exists_by_hash st content_hash with
  | (.error e, st') => (.error e, st')
  | (.ok exists?, st') =>
    if exists? then
      match db.fetch_document_by_hash st' content_hash with
      | (.error e, st'') =>
        (.error (errContext "Failed to fetch existing document by hash" e), st'')
      | (.ok (some doc), st'') => (.ok ⟨doc.id, 0, true⟩, st'')
      | (.ok none, st'') =>
        ingest_insert_path db client chunker st'' ingested content_hash
    else
      ingest_insert_path db client chunker st' ingested content_hash

/-- `IngestPipeline::search` (pipeline.rs lines 228–249): reject an empty or
whitespace-only query, embed it, and return the store's ranked results
unchanged.  The store's `vector_similarity_search` is a collaborator
function; its result rows have an arbitrary type `R`. -/
def IngestPipeline.search {Emb R Th : Type} (client : EmbeddingClient Emb)
    (vector_similarity_search : Emb → Option Th → Int → Except String (List R))
    (query : List Char) (limit : Int) (threshold : Option Th) :
    Except String (List R) :=
  if (trimChars query).isEmpty then
    .error "Search query cannot be empty"
  else
    match client.embed_query query with
    | .error e => .error (errContext "Failed to embed query" e)
    | .ok query_embedding =>
      match vector_similarity_search query_embedding threshold limit with
      | .error e => .error (errContext "Database search failed" e)
      | .ok results => .ok results

/-- C8: `search` fails with the content error on an empty or whitespace-only
query for every collaborator (so before calling any of them); likewise
`EmbeddingClient.embed_query` fails on empty or whitespace-only input; and for
a query the client embeds successfully, `search` returns the store's ranked
results unchanged. -/
theorem claim_C8_search_rejects_empty_query_and_is_thin :
    (∀ (Emb R Th : Type) (client : EmbeddingClient Emb)
        (vss : Emb → Option Th → Int → Except String (List R))
        (query : List Char) (limit : Int) (threshold : Option Th),
      (trimChars query).isEmpty = true →
      IngestPipeline.search client vss query limit threshold =
        .error "Search query cannot be empty") ∧
    (∀ (Emb : Type) (client : EmbeddingClient Emb) (query : List Char),
      (trimChars query).isEmpty = true →
      client.embed_query query =
        .error "embed_query: query must not be empty") ∧
    (∀ (Emb R Th : Type) (client : EmbeddingClient Emb)
        (vss : Emb → Option Th → Int → Except String (List R))
        (query : List Char) (limit : Int) (threshold : Option Th)
        (v : Emb) (results : List R),
      client.embed_query query = .ok v →
      vss v threshold limit = .ok results →
      IngestPipeline.search client vss query limit threshold = .ok results) := by
  refine ⟨?_, ?_, ?_⟩
  · intro Emb R Th client vss query limit threshold h
    simp [IngestPipeline.search, h]
  · intro Emb client query h
    simp [EmbeddingClient.embed_query, h]
  · intro Emb R Th client vss query limit threshold v results hemb hvss
    by_cases hq : (trimChars query).isEmpty
    · rw [EmbeddingClient.embed_query, if_pos hq] at hemb
      exact absurd hemb (by simp)
    · simp [IngestPipeline.search, hq, hemb, hvss]

/-- Stub collaborators for the C8 witness. -/
def c8Client : EmbeddingClient Unit where
  post_embed := fun _ => .error "unreachable"
  post_embed_query := fun _ => .ok ⟨()⟩

def c8Search : Unit → Option Unit → Int → Except String (List Nat) :=
  fun _ _ _ => .ok [7, 3]

theorem claim_C8_search_rejects_empty_query_and_is_thin_witness :
    (trimChars [' ']).isEmpty = true ∧
    IngestPipeline.search c8Client c8Search [' '] 5 none =
      .error "Search query cannot be empty" ∧
    EmbeddingClient.embed_query c8Client [' '] =
      .error "embed_query: query must not be empty" ∧
    EmbeddingClient.embed_query c8Client ['a'] = .ok () ∧
    c8Search () none 5 = .ok [7, 3] ∧
    IngestPipeline.search c8Client c8Search ['a'] 5 none = .ok [7, 3] :=
  ⟨by decide,
   claim_C8_search_rejects_empty_query_and_is_thin.1 Unit Nat Unit c8Client
     c8Search [' '] 5 none (by decide),
   claim_C8_search_rejects_empty_query_and_is_thin.2.1 Unit c8Client [' ']
     (by decide),
   rfl, rfl,
   claim_C8_search_rejects_empty_query_and_is_thin.2.2 Unit Nat Unit c8Client
     c8Search ['a'] 5 none () [7, 3] rfl rfl⟩

/-- C10: `embed_document` fails exactly on an empty input chunk list, a failed
transport round-trip, or an empty outer embeddings list; on success it wraps
the input as a batch of one document and returns the first inner embedding
list, discarding any additional outer entries and performing no check of the
inner list's length against the chunk count. -/
theorem claim_C10_embed_document_error_and_success_cases :
    (∀ (Emb : Type) (c : EmbeddingClient Emb),
      c.embed_document [] = .error "embed_document: chunks must not be empty") ∧
    (∀ (Emb : Type) (c : EmbeddingClient Emb) (chunks : List (List Char))
        (e : String),
      chunks.isEmpty = false → c.post_embed ⟨[chunks]⟩ = .error e →
      c.embed_document chunks = .error e) ∧
    (∀ (Emb : Type) (c : EmbeddingClient Emb) (chunks : List (List Char)),
      chunks.isEmpty = false → c.post_embed ⟨[chunks]⟩ = .ok ⟨[]⟩ →
      c.embed_document chunks =
        .error "embed_document: server returned empty embeddings list") ∧
    (∀ (Emb : Type) (c : EmbeddingClient Emb) (chunks : List (List Char))
        (first : List Emb) (rest : List (List Emb)),
      chunks.isEmpty = false → c.post_embed ⟨[chunks]⟩ = .ok ⟨first :: rest⟩ →
      c.embed_document chunks = .ok first) := by
  refine ⟨?_, ?_, ?_, ?_⟩
  · intro Emb c
    simp [EmbeddingClient.embed_document]
  · intro Emb c chunks e hne htr
    simp [EmbeddingClient.embed_document, hne, htr]
  · intro Emb c chunks hne htr
    simp [EmbeddingClient.embed_document, hne, htr]
  · intro Emb c chunks first rest hne htr
    simp [EmbeddingClient.embed_document, hne, htr]

/-- Stub transports for the C10 witness: a failing round-trip, an empty outer
list, and a one-chunk request answered by two inner lists of the wrong
length. -/
def c10ErrClient : EmbeddingClient Nat where
  post_embed := fun _ => .error "HTTP request failed"
  post_embed_query := fun _ => .error "HTTP request failed"

def c10NilClient : EmbeddingClient Nat where
  post_embed := fun _ => .ok ⟨[]⟩
  post_embed_query := fun _ => .error "unreachable"

def c10OkClient : EmbeddingClient Nat where
  post_embed := fun _ => .ok ⟨[[1, 2, 3], [9]]⟩
  post_embed_query := fun _ => .error "unreachable"

theorem claim_C10_embed_document_error_and_success_cases_witness :
    EmbeddingClient.embed_document c10OkClient [] =
      .error "embed_document: chunks must not be empty" ∧
    ([['a']] : List (List Char)).isEmpty = false ∧
    EmbeddingClient.embed_document c10ErrClient [['a']] =
      .error "HTTP request failed" ∧
    EmbeddingClient.embed_document c10NilClient [['a']] =
      .error "embed_document: server returned empty embeddings list" ∧
    EmbeddingClient.embed_document c10OkClient [['a']] = .ok [1, 2, 3] :=
  ⟨claim_C10_embed_document_error_and_success_cases.1 Nat c10OkClient,
   by decide,
   claim_C10_embed_document_error_and_success_cases.2.1 Nat c10ErrClient
     [['a']] "HTTP request failed" (by decide) rfl,
   claim_C10_embed_document_error_and_success_cases.2.2.1 Nat c10NilClient
     [['a']] (by decide) rfl,
   claim_C10_embed_document_error_and_success_cases.2.2.2 Nat c10OkClient
     [['a']] [1, 2, 3] [[9]] (by decide) rfl⟩

/-! ### Behaviour of the insert loop over the in-memory store -/

/-- The chunk rows the insert loop appends: ids from `nid`, indices from
`idx`, each row hashing its own content. -/
def mkChunkRecs {Emb : Type} (document_id : Int) (total : Nat) :
    Int → Nat → List (List Char × Emb) → List (StoredChunk Emb)
  | _, _, [] => []
  | nid, idx, (ctext, emb) :: rest =>
    ⟨nid, document_id, Int.ofNat idx, Int.ofNat total, ctext,
      FileIngester.compute_sha256 ctext, some emb⟩ ::
      mkChunkRecs document_id total (nid + 1) (idx + 1) rest

theorem mkChunkRecs_length {Emb : Type} (document_id : Int) (total : Nat) :
    ∀ (pairs : List (List Char × Emb)) (nid : Int) (idx : Nat),
      (mkChunkRecs document_id total nid idx pairs).length = pairs.length := by
  intro pairs
  induction pairs with
  | nil => intro nid idx; rfl
  | cons p rest ih =>
    intro nid idx
    obtain ⟨ctext, emb⟩ := p
    simp [mkChunkRecs, ih]

theorem mkChunkRecs_getElem {Emb : Type} (document_id : Int) (total : Nat) :
    ∀ (pairs : List (List Char × Emb)) (nid : Int) (idx k : Nat)
      (h1 : k < (mkChunkRecs document_id total nid idx pairs).length)
      (h2 : k < pairs.length),
      (mkChunkRecs document_id total nid idx pairs)[k] =
        ⟨nid + Int.ofNat k, document_id, Int.ofNat (idx + k), Int.ofNat total,
          pairs[k].1, FileIngester.compute_sha256 pairs[k].1,
          some pairs[k].2⟩ := by
  intro pairs
  induction pairs with
  | nil => intro nid idx k h1 h2; simp at h2
  | cons p rest ih =>
    intro nid idx k h1 h2
    obtain ⟨ctext, emb⟩ := p
    cases k with
    | zero => simp [mkChunkRecs]
    | succ k =>
      have h1' : k < (mkChunkRecs document_id total (nid + 1) (idx + 1) rest).length := by
        rw [mkChunkRecs_length]
        simpa using h2
      have h2' : k < rest.length := by simpa using h2
      have hrec : (mkChunkRecs document_id total nid idx
          ((ctext, emb) :: rest))[k + 1] =
          (mkChunkRecs document_id total (nid + 1) (idx + 1) rest)[k] := by
        simp [mkChunkRecs]
      rw [hrec, ih (nid + 1) (idx + 1) k h1' h2']
      have e1 : nid + 1 + Int.ofNat k = nid + Int.ofNat (k + 1) := by
        simp only [Int.ofNat_eq_coe]
        push_cast
        ring
      have e2 : idx + 1 + k = idx + (k + 1) := by omega
      simp [e1, e2] <;> omega

/-- Outcomes of `memDb.insert_chunk`: a uniqueness-conflict error leaving the
state unchanged, or success appending the row and bumping the id counter. -/
theorem memDb_insert_chunk_cases {Emb : Type} (st st2 : StoreState Emb)
    (c : InsertChunk Emb) (res : Except String Int)
    (h : memDb.insert_chunk st c = (res, st2)) :
    (res =
        .error "Failed to insert chunk: duplicate key value violates unique constraint" ∧
      st2 = st) ∨
    (res = .ok st.next_chunk_id ∧
      st2 = { st with
        chunks := st.chunks ++
          [⟨st.next_chunk_id, c.document_id, c.chunk_index, c.total_chunks,
            c.content, c.content_hash, c.embedding⟩],
        next_chunk_id := st.next_chunk_id + 1 }) := by
  simp only [memDb] at h
  split at h
  · injection h with h1 h2
    exact .inl ⟨h1.symm, h2.symm⟩
  · injection h with h1 h2
    exact .inr ⟨h1.symm, h2.symm⟩

theorem insert_chunks_loop_preserves_documents {Emb : Type}
    (document_id : Int) (total : Nat) :
    ∀ (pairs : List (List Char × Emb)) (st : StoreState Emb)
      (idx inserted : Nat),
      (insert_chunks_loop memDb document_id total st pairs idx
          inserted).2.documents = st.documents ∧
      (insert_chunks_loop memDb document_id total st pairs idx
          inserted).2.next_document_id = st.next_document_id := by
  intro pairs
  induction pairs with
  | nil => intro st idx inserted; exact ⟨rfl, rfl⟩
  | cons p rest ih =>
    intro st idx inserted
    obtain ⟨ctext, emb⟩ := p
    simp only [insert_chunks_loop]
    rcases hins : memDb.insert_chunk st
        ⟨document_id, Int.ofNat idx, Int.ofNat total, ctext,
          FileIngester.compute_sha256 ctext, some emb⟩ with ⟨res, st2⟩
    rcases memDb_insert_chunk_cases st st2 _ res hins with ⟨hres, hst⟩ | ⟨hres, hst⟩
    · subst hres
      exact ⟨by rw [hst], by rw [hst]⟩
    · subst hres
      subst hst
      constructor
      · show (insert_chunks_loop memDb document_id total _ rest (idx + 1)
            (inserted + 1)).2.documents = st.documents
        rw [(ih _ (idx + 1) (inserted + 1)).1]
      · show (insert_chunks_loop memDb document_id total _ rest (idx + 1)
            (inserted + 1)).2.next_document_id = st.next_document_id
        rw [(ih _ (idx + 1) (inserted + 1)).2]

theorem insert_chunks_loop_ok_spec {Emb : Type} (document_id : Int)
    (total : Nat) :
    ∀ (pairs : List (List Char × Emb)) (st st' : StoreState Emb)
      (idx inserted n : Nat),
      insert_chunks_loop memDb document_id total st pairs idx inserted =
        (.ok n, st') →
      n = inserted + pairs.length ∧
      st'.chunks = st.chunks ++
        mkChunkRecs document_id total st.next_chunk_id idx pairs := by
  intro pairs
  induction pairs with
  | nil =>
    intro st st' idx inserted n h
    simp only [insert_chunks_loop] at h
    injection h with h1 h2
    injection h1 with h1
    subst h2
    simp [mkChunkRecs, h1]
  | cons p rest ih =>
    intro st st' idx inserted n h
    obtain ⟨ctext, emb⟩ := p
    simp only [insert_chunks_loop] at h
    rcases hins : memDb.insert_chunk st
        ⟨document_id, Int.ofNat idx, Int.ofNat total, ctext,
          FileIngester.compute_sha256 ctext, some emb⟩ with ⟨res, st2⟩
    rw [hins] at h
    rcases memDb_insert_chunk_cases st st2 _ res hins with ⟨hres, hst⟩ | ⟨hres, hst⟩
    · subst hres
      have h' : ((Except.error "Failed to insert chunk: duplicate key value violates unique constraint" :
          Except String Nat), st2) = (Except.ok n, st') := h
      simp at h'
    · subst hres
      subst hst
      have h' : insert_chunks_loop memDb document_id total _ rest (idx + 1)
          (inserted + 1) = (Except.ok n, st') := h
      obtain ⟨h1, h2⟩ := ih _ st' (idx + 1) (inserted + 1) n h'
      constructor
      · simp only [List.length_cons]
        omega
      · rw [h2]
        simp [mkChunkRecs]

/-- `memDb.insert_document` succeeds when no stored document carries the
fingerprint, appending the row and bumping the id counter. -/
theorem memDb_insert_document_ok {Emb : Type} (st : StoreState Emb)
    (doc : InsertDocument)
    (hnodup : st.documents.any
      (fun d => d.content_hash == doc.content_hash) = false) :
    memDb.insert_document st doc =
      (.ok st.next_document_id,
        { st with
          documents := st.documents ++
            [⟨st.next_document_id, doc.title, doc.source_path,
              doc.source_type, doc.raw_content, doc.content_hash,
              doc.metadata⟩],
          next_document_id := st.next_document_id + 1 }) := by
  simp only [memDb, hnodup, Bool.false_eq_true, if_false]

/-- The document row the insert path appends for `ingested` under
fingerprint `ch` when the store's next id is `nid`. -/
def newDocRow (ingested : IngestedDocument) (ch : String) (nid : Int) :
    Document :=
  ⟨nid, some ingested.title, some ingested.source_path,
    some ingested.source_type, ingested.raw_content, ch, ingested.metadata⟩

/-- Full characterisation of a successful run of the non-duplicate insert
path over the in-memory store. -/
theorem ingest_insert_path_spec {Emb : Type} (client : EmbeddingClient Emb)
    (chunker : TextChunker) (st0 st1 : StoreState Emb)
    (ingested : IngestedDocument) (ch : String) (r : IngestResult)
    (hnodup : st0.documents.any (fun d => d.content_hash == ch) = false)
    (hok : ingest_insert_path memDb client chunker st0 ingested ch =
      (.ok r, st1)) :
    r.was_duplicate = false ∧
    r.document_id = st0.next_document_id ∧
    r.chunks_inserted = (chunker.chunk_text ingested.raw_content).length ∧
    st1.documents = st0.documents ++ [newDocRow ingested ch st0.next_document_id] ∧
    st1.next_document_id = st0.next_document_id + 1 ∧
    ∃ embs : List Emb,
      client.embed_document (chunker.chunk_text ingested.raw_content) =
        .ok embs ∧
      embs.length = (chunker.chunk_text ingested.raw_content).length ∧
      st1.chunks = st0.chunks ++
        mkChunkRecs st0.next_document_id
          (chunker.chunk_text ingested.raw_content).length
          st0.next_chunk_id 0
          ((chunker.chunk_text ingested.raw_content).zip embs) := by
  simp only [ingest_insert_path] at hok
  rw [memDb_insert_document_ok st0 _ (by simpa using hnodup)] at hok
  dsimp only at hok
  cases hchunks : (chunker.chunk_text ingested.raw_content).isEmpty with
  | true => simp [hchunks] at hok
  | false =>
    simp only [hchunks, Bool.false_eq_true, if_false] at hok
    rcases hembs : client.embed_document (chunker.chunk_text ingested.raw_content)
      with e | embs
    · rw [hembs] at hok
      simp at hok
    · rw [hembs] at hok
      dsimp only at hok
      by_cases hlen : embs.length = (chunker.chunk_text ingested.raw_content).length
      · rw [if_neg (not_not_intro hlen)] at hok
        rcases hloop : insert_chunks_loop memDb st0.next_document_id
            (chunker.chunk_text ingested.raw_content).length _
            ((chunker.chunk_text ingested.raw_content).zip embs) 0 0
          with ⟨resl, st''⟩
        rw [hloop] at hok
        cases resl with
        | error e => simp at hok
        | ok nn =>
          simp only [Prod.mk.injEq, Except.ok.injEq] at hok
          obtain ⟨hr, hst1⟩ := hok
          subst hst1
          obtain ⟨hn, hchunks'⟩ := insert_chunks_loop_ok_spec
            st0.next_document_id
            (chunker.chunk_text ingested.raw_content).length
            ((chunker.chunk_text ingested.raw_content).zip embs)
            _ st'' 0 0 nn hloop
          have hdocs := insert_chunks_loop_preserves_documents
            st0.next_document_id
            (chunker.chunk_text ingested.raw_content).length
            ((chunker.chunk_text ingested.raw_content).zip embs)
            { documents := st0.documents ++
                [{ id := st0.next_document_id, title := some ingested.title,
                   source_path := some ingested.source_path,
                   source_type := some ingested.source_type,
                   raw_content := ingested.raw_content, content_hash := ch,
                   metadata := ingested.metadata }],
              chunks := st0.chunks,
              next_document_id := st0.next_document_id + 1,
              next_chunk_id := st0.next_chunk_id } 0 0
          rw [hloop] at hdocs
          refine ⟨by rw [← hr], by rw [← hr], ?_, ?_, ?_, embs, rfl, hlen, ?_⟩
          · rw [← hr]
            show nn = (chunker.chunk_text ingested.raw_content).length
            rw [hn]
            simp [List.length_zip, hlen]
          · rw [hdocs.1]
            rfl
          · rw [hdocs.2]
          · rw [hchunks']
      · rw [if_pos hlen] at hok
        simp at hok

/-- If a stored document carries the content fingerprint, `ingest` returns
the duplicate outcome for the first matching row and leaves the store
untouched. -/
theorem ingest_found_duplicate {Emb : Type} (client : EmbeddingClient Emb)
    (chunker : TextChunker) (st : StoreState Emb)
    (ingested : IngestedDocument) (doc : Document)
    (hfind : st.documents.find? (fun d => d.content_hash ==
      FileIngester.compute_sha256 ingested.raw_content) = some doc) :
    ingest_ingested_document memDb client chunker st ingested =
      (.ok ⟨doc.id, 0, true⟩, st) := by
  have hany : st.documents.any (fun d => d.content_hash ==
      FileIngester.compute_sha256 ingested.raw_content) = true := by
    rw [List.any_eq_true]
    refine ⟨doc, List.mem_of_find?_eq_some hfind, ?_⟩
    have hp := List.find?_some hfind
    simpa using hp
  simp only [ingest_ingested_document, memDb]
  rw [hany, hfind]
  rfl

/-- With no stored document carrying the fingerprint, `ingest` reduces to the
insert path. -/
theorem ingest_not_found {Emb : Type} (client : EmbeddingClient Emb)
    (chunker : TextChunker) (st : StoreState Emb)
    (ingested : IngestedDocument)
    (hnodup : st.documents.any (fun d => d.content_hash ==
      FileIngester.compute_sha256 ingested.raw_content) = false) :
    ingest_ingested_document memDb client chunker st ingested =
      ingest_insert_path memDb client chunker st ingested
        (FileIngester.compute_sha256 ingested.raw_content) := by
  simp only [ingest_ingested_document, memDb]
  rw [hnodup]
  rfl

/-- C2: an `ingest` whose raw content's fingerprint already identifies a
stored document returns that document's id with `chunks_inserted = 0` and
`was_duplicate = true`, leaving the store unchanged; consequently two ingests
of identical content return `was_duplicate = false` then `true`, with the
same `document_id` and `chunks_inserted = 0` on the second call. -/
theorem claim_C2_ingest_idempotent_on_identical_content {Emb : Type}
    (client : EmbeddingClient Emb) (chunker : TextChunker) :
    (∀ (st : StoreState Emb) (ingested : IngestedDocument) (doc : Document),
      st.documents.find? (fun d => d.content_hash ==
        FileIngester.compute_sha256 ingested.raw_content) = some doc →
      ingest_ingested_document memDb client chunker st ingested =
        (.ok ⟨doc.id, 0, true⟩, st)) ∧
    (∀ (st0 st1 : StoreState Emb) (ingested : IngestedDocument)
        (r1 : IngestResult),
      st0.documents.any (fun d => d.content_hash ==
        FileIngester.compute_sha256 ingested.raw_content) = false →
      ingest_ingested_document memDb client chunker st0 ingested =
        (.ok r1, st1) →
      r1.was_duplicate = false ∧
      ingest_ingested_document memDb client chunker st1 ingested =
        (.ok ⟨r1.document_id, 0, true⟩, st1)) := by
  constructor
  · intro st ingested doc hfind
    exact ingest_found_duplicate client chunker st ingested doc hfind
  · intro st0 st1 ingested r1 hnodup hok
    rw [ingest_not_found client chunker st0 ingested hnodup] at hok
    obtain ⟨hwd, hid, _, hdocs, _, _⟩ :=
      ingest_insert_path_spec client chunker st0 st1 ingested
        (FileIngester.compute_sha256 ingested.raw_content) r1 hnodup hok
    have hfind1 : st1.documents.find? (fun d => d.content_hash ==
        FileIngester.compute_sha256 ingested.raw_content) =
        some (newDocRow ingested
          (FileIngester.compute_sha256 ingested.raw_content)
          st0.next_document_id) := by
      rw [hdocs, List.find?_append]
      have h0 : st0.documents.find? (fun d => d.content_hash ==
          FileIngester.compute_sha256 ingested.raw_content) = none := by
        rw [List.find?_eq_none]
        intro x hx
        rw [List.any_eq_false] at hnodup
        exact hnodup x hx
      rw [h0]
      simp [newDocRow]
    refine ⟨hwd, ?_⟩
    have := ingest_found_duplicate client chunker st1 ingested _ hfind1
    rw [this]
    rw [← hid]
    rfl

/-- C3: when the embedding gateway returns a vector count different from the
chunk count on a non-duplicate ingest, `ingest` fails with the
embedding-count-mismatch error and no chunk row is written. -/
theorem claim_C3_embedding_count_mismatch_persists_no_chunk {Emb : Type}
    (client : EmbeddingClient Emb) (chunker : TextChunker)
    (st0 : StoreState Emb) (ingested : IngestedDocument) (embs : List Emb)
    (hnodup : st0.documents.any (fun d => d.content_hash ==
      FileIngester.compute_sha256 ingested.raw_content) = false)
    (hchunks : (chunker.chunk_text ingested.raw_content).isEmpty = false)
    (hembs : client.embed_document (chunker.chunk_text ingested.raw_content) =
      .ok embs)
    (hmismatch : embs.length ≠
      (chunker.chunk_text ingested.raw_content).length) :
    (ingest_ingested_document memDb client chunker st0 ingested).1 =
      .error ("Embedding count mismatch: expected " ++
        toString (chunker.chunk_text ingested.raw_content).length ++
        ", got " ++ toString embs.length) ∧
    (ingest_ingested_document memDb client chunker st0 ingested).2.chunks =
      st0.chunks := by
  rw [ingest_not_found client chunker st0 ingested hnodup]
  simp only [ingest_insert_path]
  rw [memDb_insert_document_ok st0 _ (by simpa using hnodup)]
  dsimp only
  simp only [hchunks, Bool.false_eq_true, if_false]
  rw [hembs]
  dsimp only
  rw [if_pos hmismatch]
  exact ⟨rfl, rfl⟩

/-- C6: a non-duplicate ingest whose raw text chunks to zero entries fails
with the content error; the document row inserted just before chunking
remains, no chunk row is written, and no embedding call is made (the outcome
is the same for every embedding client). -/
theorem claim_C6_zero_chunks_content_error_keeps_document {Emb : Type}
    (chunker : TextChunker) (st0 : StoreState Emb)
    (ingested : IngestedDocument)
    (hnodup : st0.documents.any (fun d => d.content_hash ==
      FileIngester.compute_sha256 ingested.raw_content) = false)
    (hempty : chunker.chunk_text ingested.raw_content = []) :
    ∀ client : EmbeddingClient Emb,
      ingest_ingested_document memDb client chunker st0 ingested =
        (.error "No chunks produced from document content",
          { st0 with
            documents := st0.documents ++
              [newDocRow ingested
                (FileIngester.compute_sha256 ingested.raw_content)
                st0.next_document_id],
            next_document_id := st0.next_document_id + 1 }) := by
  intro client
  rw [ingest_not_found client chunker st0 ingested hnodup]
  simp only [ingest_insert_path]
  rw [memDb_insert_document_ok st0 _ (by simpa using hnodup)]
  dsimp only
  simp [hempty, newDocRow]

/-- C7: a successful non-duplicate ingest producing N chunks writes exactly N
chunk rows after the existing ones, whose `chunk_index` values are `0..N-1` in
chunker output order, whose `total_chunks` is N throughout, whose
`content_hash` is the fingerprint of the row's own content, and reports
`chunks_inserted = N`. -/
theorem claim_C7_chunk_row_invariants {Emb : Type}
    (client : EmbeddingClient Emb) (chunker : TextChunker)
    (st0 st1 : StoreState Emb) (ingested : IngestedDocument)
    (r : IngestResult)
    (hok : ingest_ingested_document memDb client chunker st0 ingested =
      (.ok r, st1))
    (hnd : r.was_duplicate = false) :
    r.chunks_inserted = (chunker.chunk_text ingested.raw_content).length ∧
    ∃ newRecs : List (StoredChunk Emb),
      st1.chunks = st0.chunks ++ newRecs ∧
      newRecs.length = (chunker.chunk_text ingested.raw_content).length ∧
      ∀ (k : Nat) (h1 : k < newRecs.length)
        (h2 : k < (chunker.chunk_text ingested.raw_content).length),
        newRecs[k].chunk_index = Int.ofNat k ∧
        newRecs[k].total_chunks =
          Int.ofNat (chunker.chunk_text ingested.raw_content).length ∧
        newRecs[k].document_id = r.document_id ∧
        newRecs[k].content = (chunker.chunk_text ingested.raw_content)[k] ∧
        newRecs[k].content_hash =
          FileIngester.compute_sha256 (newRecs[k].content) := by
  cases hany : st0.documents.any (fun d => d.content_hash ==
      FileIngester.compute_sha256 ingested.raw_content) with
  | true =>
    have hsome : (st0.documents.find? (fun d => d.content_hash ==
        FileIngester.compute_sha256 ingested.raw_content)).isSome := by
      rw [List.find?_isSome]
      rw [List.any_eq_true] at hany
      exact hany
    obtain ⟨doc, hfind⟩ := Option.isSome_iff_exists.mp hsome
    rw [ingest_found_duplicate client chunker st0 ingested doc hfind] at hok
    simp only [Prod.mk.injEq, Except.ok.injEq] at hok
    rw [← hok.1] at hnd
    simp at hnd
  | false =>
    rw [ingest_not_found client chunker st0 ingested hany] at hok
    obtain ⟨hwd, hid, hcnt, hdocs, hnid, embs, hembs, hlen, hchunks⟩ :=
      ingest_insert_path_spec client chunker st0 st1 ingested _ r hany hok
    refine ⟨hcnt,
      mkChunkRecs st0.next_document_id
        (chunker.chunk_text ingested.raw_content).length
        st0.next_chunk_id 0
        ((chunker.chunk_text ingested.raw_content).zip embs),
      hchunks, ?_, ?_⟩
    · rw [mkChunkRecs_length, List.length_zip, hlen]
      exact Nat.min_self _
    · intro k h1 h2
      have hkz : k <
          ((chunker.chunk_text ingested.raw_content).zip embs).length := by
        rw [List.length_zip, hlen]
        simpa using h2
      rw [mkChunkRecs_getElem _ _ _ _ _ _ h1 hkz]
      refine ⟨by simp, rfl, hid.symm, ?_, rfl⟩
      show ((chunker.chunk_text ingested.raw_content).zip embs)[k].1 =
        (chunker.chunk_text ingested.raw_content)[k]
      rw [List.getElem_zip]

/-! ### Concrete witnesses for the store-level claims -/

/-- Witness embedding client: answers each document with one unit vector per
chunk, so the returned count always matches. -/
def unitEmbClient : EmbeddingClient Unit where
  post_embed := fun req =>
    .ok ⟨req.chunks.map (fun doc => doc.map (fun _ => ()))⟩
  post_embed_query := fun _ => .ok ⟨()⟩

def emptyStore : StoreState Unit := ⟨[], [], 1, 1⟩

def c2Ingested : IngestedDocument := ⟨"t", "p", "text", "hello world".data, none⟩

def c2Run : Except String IngestResult × StoreState Unit :=
  ingest_ingested_document memDb unitEmbClient ⟨500, 50⟩ emptyStore c2Ingested

theorem claim_C2_ingest_idempotent_on_identical_content_witness :
    (emptyStore.documents.any (fun d => d.content_hash ==
      FileIngester.compute_sha256 c2Ingested.raw_content) = false) ∧
    ingest_ingested_document memDb unitEmbClient ⟨500, 50⟩ emptyStore
      c2Ingested = (.ok ⟨1, 1, false⟩, c2Run.2) ∧
    ((⟨1, 1, false⟩ : IngestResult).was_duplicate = false ∧
      ingest_ingested_document memDb unitEmbClient ⟨500, 50⟩ c2Run.2
        c2Ingested =
        (.ok ⟨(⟨1, 1, false⟩ : IngestResult).document_id, 0, true⟩,
          c2Run.2)) := by
  have hok : ingest_ingested_document memDb unitEmbClient ⟨500, 50⟩
      emptyStore c2Ingested = (.ok ⟨1, 1, false⟩, c2Run.2) := by rfl
  exact ⟨rfl, hok,
    (claim_C2_ingest_idempotent_on_identical_content unitEmbClient
      ⟨500, 50⟩).2 emptyStore c2Run.2 c2Ingested ⟨1, 1, false⟩ rfl hok⟩

def c3Client : EmbeddingClient Unit where
  post_embed := fun _ => .ok ⟨[[(), ()]]⟩
  post_embed_query := fun _ => .ok ⟨()⟩

def c3Ingested : IngestedDocument := ⟨"t", "p", "text", "hello world".data, none⟩

theorem claim_C3_embedding_count_mismatch_persists_no_chunk_witness :
    (emptyStore.documents.any (fun d => d.content_hash ==
      FileIngester.compute_sha256 c3Ingested.raw_content) = false) ∧
    ((TextChunker.chunk_text ⟨500, 50⟩ c3Ingested.raw_content).isEmpty =
      false) ∧
    (EmbeddingClient.embed_document c3Client
      (TextChunker.chunk_text ⟨500, 50⟩ c3Ingested.raw_content) =
      .ok [(), ()]) ∧
    (([(), ()] : List Unit).length ≠
      (TextChunker.chunk_text ⟨500, 50⟩ c3Ingested.raw_content).length) ∧
    ((ingest_ingested_document memDb c3Client ⟨500, 50⟩ emptyStore
        c3Ingested).1 =
      .error ("Embedding count mismatch: expected " ++
        toString (TextChunker.chunk_text ⟨500, 50⟩
          c3Ingested.raw_content).length ++
        ", got " ++ toString ([(), ()] : List Unit).length) ∧
     (ingest_ingested_document memDb c3Client ⟨500, 50⟩ emptyStore
        c3Ingested).2.chunks = emptyStore.chunks) :=
  ⟨rfl, by decide, rfl, by decide,
    claim_C3_embedding_count_mismatch_persists_no_chunk c3Client ⟨500, 50⟩
      emptyStore c3Ingested [(), ()] rfl (by decide) rfl (by decide)⟩

def c6Client : EmbeddingClient Unit where
  post_embed := fun _ => .error "unreachable"
  post_embed_query := fun _ => .error "unreachable"

def c6Ingested : IngestedDocument := ⟨"t", "p", "text", "   ".data, none⟩

theorem claim_C6_zero_chunks_content_error_keeps_document_witness :
    (emptyStore.documents.any (fun d => d.content_hash ==
      FileIngester.compute_sha256 c6Ingested.raw_content) = false) ∧
    (TextChunker.chunk_text ⟨500, 50⟩ c6Ingested.raw_content = []) ∧
    ingest_ingested_document memDb c6Client ⟨500, 50⟩ emptyStore c6Ingested =
      (.error "No chunks produced from document content",
        { emptyStore with
          documents := emptyStore.documents ++
            [newDocRow c6Ingested
              (FileIngester.compute_sha256 c6Ingested.raw_content)
              emptyStore.next_document_id],
          next_document_id := emptyStore.next_document_id + 1 }) :=
  ⟨rfl, by decide,
    claim_C6_zero_chunks_content_error_keeps_document ⟨500, 50⟩ emptyStore
      c6Ingested rfl (by decide) c6Client⟩

def c7Ingested : IngestedDocument := ⟨"t", "p", "text", "hello world".data, none⟩

def c7Run : Except String IngestResult × StoreState Unit :=
  ingest_ingested_document memDb unitEmbClient ⟨500, 50⟩ emptyStore c7Ingested

theorem claim_C7_chunk_row_invariants_witness :
    ingest_ingested_document memDb unitEmbClient ⟨500, 50⟩ emptyStore
      c7Ingested = (.ok ⟨1, 1, false⟩, c7Run.2) ∧
    ((⟨1, 1, false⟩ : IngestResult).was_duplicate = false) ∧
    ((⟨1, 1, false⟩ : IngestResult).chunks_inserted =
      (TextChunker.chunk_text ⟨500, 50⟩ c7Ingested.raw_content).length ∧
     ∃ newRecs : List (StoredChunk Unit),
       c7Run.2.chunks = emptyStore.chunks ++ newRecs ∧
       newRecs.length =
         (TextChunker.chunk_text ⟨500, 50⟩ c7Ingested.raw_content).length ∧
       ∀ (k : Nat) (h1 : k < newRecs.length)
         (h2 : k < (TextChunker.chunk_text ⟨500, 50⟩
           c7Ingested.raw_content).length),
         newRecs[k].chunk_index = Int.ofNat k ∧
         newRecs[k].total_chunks = Int.ofNat
           (TextChunker.chunk_text ⟨500, 50⟩ c7Ingested.raw_content).length ∧
         newRecs[k].document_id = (⟨1, 1, false⟩ : IngestResult).document_id ∧
         newRecs[k].content =
           (TextChunker.chunk_text ⟨500, 50⟩ c7Ingested.raw_content)[k] ∧
         newRecs[k].content_hash =
           FileIngester.compute_sha256 (newRecs[k].content)) := by
  have hok : ingest_ingested_document memDb unitEmbClient ⟨500, 50⟩
      emptyStore c7Ingested = (.ok ⟨1, 1, false⟩, c7Run.2) := by rfl
  exact ⟨hok, rfl,
    claim_C7_chunk_row_invariants unitEmbClient ⟨500, 50⟩ emptyStore c7Run.2
      c7Ingested ⟨1, 1, false⟩ hok rfl⟩

/-! ### C5: behaviour when `insert_document` hits the uniqueness conflict

pipeline.rs line 166 propagates any `insert_document` error with `?`; there is
no handling that turns a fingerprint-uniqueness conflict into a duplicate
outcome.  A store whose existence check reports the document absent while
`insert_document` fails with the conflict (the losing side of the race the
specification describes) therefore makes `ingest` return the error. -/

/-- A store behaving like the loser of the dedup race: the existence check
(and fetch) see no document, but the insert hits the uniqueness conflict
committed by the winner. -/
def c5RaceDb : DbOps Unit Unit where
  document_exists_by_hash := fun _ _ => (.ok false, ())
  fetch_document_by_hash := fun _ _ => (.ok none, ())
  insert_document := fun _ _ =>
    (.error "Failed to insert document: duplicate key value violates unique constraint",
      ())
  insert_chunk := fun _ _ => (.ok 0, ())

def c5Client : EmbeddingClient Unit where
  post_embed := fun _ => .ok ⟨[[()]]⟩
  post_embed_query := fun _ => .ok ⟨()⟩

def c5Ingested : IngestedDocument := ⟨"t", "p", "text", "hello".data, none⟩

/-- C5 as stated is false on the code: with the race store, `ingest` returns
the propagated insert error, not an `IngestResult` with
`was_duplicate = true`. -/
theorem claim_C5_counterexample_race_conflict_is_error :
    ingest_ingested_document c5RaceDb c5Client ⟨500, 50⟩ () c5Ingested =
      (.error "Failed to insert document: duplicate key value violates unique constraint",
        ()) := by
  rfl

/-- C5 (amended): when the existence check reports the document absent and
`insert_document` then fails — as on the losing side of a fingerprint race —
`ingest` propagates that error unchanged to the caller instead of returning a
duplicate outcome; duplicate outcomes arise only from the existence-check
path. -/
theorem claim_C5_amended_insert_conflict_propagates_as_error
    {σ Emb : Type} (db : DbOps σ Emb) (client : EmbeddingClient Emb)
    (chunker : TextChunker) (st st' st'' : σ)
    (ingested : IngestedDocument) (e : String)
    (hex : db.document_exists_by_hash st
      (FileIngester.compute_sha256 ingested.raw_content) = (.ok false, st'))
    (hins : db.insert_document st'
      ⟨some ingested.title, some ingested.source_path,
        some ingested.source_type, ingested.raw_content,
        FileIngester.compute_sha256 ingested.raw_content,
        ingested.metadata⟩ = (.error e, st'')) :
    ingest_ingested_document db client chunker st ingested =
      (.error e, st'') := by
  simp only [ingest_ingested_document]
  rw [hex]
  dsimp only
  simp only [Bool.false_eq_true, if_false]
  simp only [ingest_insert_path]
  rw [hins]

theorem claim_C5_amended_insert_conflict_propagates_as_error_witness :
    c5RaceDb.document_exists_by_hash ()
      (FileIngester.compute_sha256 c5Ingested.raw_content) =
      (.ok false, ()) ∧
    c5RaceDb.insert_document ()
      ⟨some c5Ingested.title, some c5Ingested.source_path,
        some c5Ingested.source_type, c5Ingested.raw_content,
        FileIngester.compute_sha256 c5Ingested.raw_content,
        c5Ingested.metadata⟩ =
      (.error "Failed to insert document: duplicate key value violates unique constraint",
        ()) ∧
    ingest_ingested_document c5RaceDb c5Client ⟨500, 50⟩ () c5Ingested =
      (.error "Failed to insert document: duplicate key value violates unique constraint",
        ()) :=
  ⟨rfl, rfl,
    claim_C5_amended_insert_conflict_propagates_as_error c5RaceDb c5Client
      ⟨500, 50⟩ () () () c5Ingested
      "Failed to insert document: duplicate key value violates unique constraint"
      rfl rfl⟩

end Monoclaw
